import Mathlib

/-!
Verification of the `rate-limiter` repository: a shallow embedding of its
three Redis-backed rate-limiting algorithms (Fixed Window Counter,
Sliding Window Log, Leaky Bucket Gauge) and of the facade's key
derivation, together with proofs and refutations of the specification's
claims about them.

Modelling conventions:
* Timestamps are `ℤ`. The fixed-window algorithm works in seconds
  (the source does `Math.floor(Date.now() / 1000)`); the sliding-window
  and leaky-bucket algorithms work in milliseconds (`Date.now()`).
* JavaScript/Lua numeric floor and ceil of an integer division by a
  positive integer are modelled with `ℤ` euclidean division (`/` rounds
  toward negative infinity for positive divisors, matching `Math.floor`)
  and `ceilDiv` below (matching `Math.ceil`).
* The leaky bucket's fractional level and leak rate are modelled with
  exact rationals `ℚ` in place of IEEE doubles; all concrete inputs used
  in the theorems are small dyadic values on which double arithmetic is
  exact, so the idealisation is faithful there.
* Redis state is modelled per derived key: the counter (plus expiry
  instant) for the fixed window, the list of sorted-set scores for the
  sliding window, the stored gauge payload for the leaky bucket.
  A request's sorted-set member is `now .. ':' .. math.random()`; only
  its score (`now`) matters to any claim, so an entry is its score.
* The sliding-window `EXPIRE key windowSeconds` is not modelled: for
  non-negative clocks it only deletes entries that the script's own
  `ZREMRANGEBYSCORE 0 (now - windowSeconds*1000)` prune would delete at
  the next check anyway, so it does not change any checked result.
* A stored leaky-bucket payload that is not valid JSON makes the Lua
  script's `cjson.decode` raise, aborting the `EVAL`; the check is
  therefore modelled as `Except`, with the malformed-payload branch
  returning `Except.error`.
-/

/-- Math.ceil of the division of an integer by a positive integer,
as performed by the JS `Math.ceil(a / b)` on integer operands. -/
def ceilDiv (a b : ℤ) : ℤ := -((-a) / b)

/-- Result record returned by every `check`, from `src/types.ts`
(`RateLimitResult`). -/
structure RateLimitResult where
  allowed : Bool
  current : ℤ
  limit : ℤ
  remaining : ℤ
  resetAt : ℤ
  retryAfter : ℤ
deriving DecidableEq, Repr

namespace FixedWindowRateLimiter

/-- Stored state at one derived key: the counter value together with the
instant (in seconds) at which the key's TTL expires. `none` is an absent
key. -/
abbrev State := Option (ℤ × ℤ)

/-- Redis lazily deletes a key whose expiry has passed: an `INCR` at or
after the expiry instant sees an absent key. -/
def load (st : State) (now : ℤ) : State :=
  match st with
  | some (c, expAt) => if expAt ≤ now then none else some (c, expAt)
  | none => none

/-- FixedWindowRateLimiter.check (src/algorithms, `part_001` lines
36-82), with `now` in seconds. `INCR` creates an absent key at 1; if the
key had no TTL (it was just created), `EXPIRE key (resetAt - now)` is
issued. Returns the result together with the stored state after the
call. -/
def check (maxRequests windowSeconds : ℤ) (st : State) (now : ℤ) :
    RateLimitResult × (ℤ × ℤ) :=
  let live := load st now
  let current : ℤ :=
    match live with
    | some (c, _) => c + 1
    | none => 1
  let windowStart := now / windowSeconds * windowSeconds
  let resetAt := windowStart + windowSeconds
  let expAt' : ℤ :=
    match live with
    | some (_, e) => e
    | none => now + (resetAt - now)
  let remaining := max 0 (maxRequests - current)
  let retryAfter := if current ≤ maxRequests then 0 else resetAt - now
  (⟨decide (current ≤ maxRequests), current, maxRequests, remaining,
    resetAt, retryAfter⟩,
   (current, expAt'))

/-- FixedWindowRateLimiter.reset: `DEL key`. -/
def reset (_st : State) : State := none

/-- Run a sequence of checks from a starting state, collecting the
results. -/
def run (maxRequests windowSeconds : ℤ) (st : State) (ts : List ℤ) :
    List RateLimitResult × State :=
  match ts with
  | [] => ([], st)
  | t :: rest =>
    let p := check maxRequests windowSeconds st t
    let q := run maxRequests windowSeconds (some p.2) rest
    (p.1 :: q.1, q.2)

end FixedWindowRateLimiter

namespace SlidingWindowRateLimiter

/-- Stored sorted-set state at one derived key: the list of scores
(request timestamps in milliseconds). -/
abbrev Log := List ℤ

/-- `ZREMRANGEBYSCORE key 0 windowStart`: removes exactly the entries
whose score lies in the closed range `[0, windowStart]`. -/
def prune (windowStart : ℤ) (log : Log) : Log :=
  log.filter fun s => decide (windowStart < s) || decide (s < 0)

/-- Lowest score of the set, as read by
`ZRANGE key 0 0 WITHSCORES` (`getOldestTimestamp`, `part_001` lines
331-337); `none` when the set is empty. -/
def getOldestTimestamp : Log → Option ℤ
  | [] => none
  | t :: rest =>
    match getOldestTimestamp rest with
    | none => some t
    | some m => some (min t m)

/-- SlidingWindowRateLimiter.check (`part_001` lines 266-329), with
`now` in milliseconds. The Lua script prunes entries with score in
`[0, now - windowSeconds*1000]`, counts the remainder, inserts the new
request only when the count is below the limit, and returns the
(possibly incremented) count; the JS wrapper then computes `allowed =
current <= maxRequests` and derives `resetAt` from the oldest surviving
entry. Returns the result together with the stored log after the
call. -/
def check (maxRequests windowSeconds : ℤ) (log : Log) (now : ℤ) :
    RateLimitResult × Log :=
  let windowStart := now - windowSeconds * 1000
  let pruned := prune windowStart log
  let cnt : ℤ := pruned.length
  let current := if cnt < maxRequests then cnt + 1 else cnt
  let log' := if cnt < maxRequests then now :: pruned else pruned
  let remaining := max 0 (maxRequests - current)
  let resetAt :=
    match getOldestTimestamp log' with
    | some m => ceilDiv (m + windowSeconds * 1000) 1000
    | none => ceilDiv now 1000 + windowSeconds
  let retryAfter :=
    if current ≤ maxRequests then 0 else max 0 (resetAt - now / 1000)
  (⟨decide (current ≤ maxRequests), current, maxRequests, remaining,
    resetAt, retryAfter⟩,
   log')

/-- SlidingWindowRateLimiter.reset: `DEL key`. -/
def reset (_log : Log) : Log := []

end SlidingWindowRateLimiter

namespace LeakyBucketRateLimiter

/-- Persisted gauge payload: either a well-formed JSON object with the
`level` and `lastLeakTime` fields, or a payload that `cjson.decode`
cannot parse. -/
inductive Stored where
  | valid (level : ℚ) (lastLeakTime : ℤ)
  | malformed
deriving DecidableEq, Repr

/-- LeakyBucketRateLimiter.check (`part_001` lines 139-217), with `now`
in milliseconds and `leakRate = maxRequests / windowSeconds`. An absent
key defaults to `level = 0, lastLeakTime = now`; a malformed payload
aborts the Lua script (`cjson.decode` raises), surfacing as an error.
On success, returns the result together with the persisted state after
the call. -/
def check (maxRequests windowSeconds : ℤ) (st : Option Stored) (now : ℤ) :
    Except String (RateLimitResult × Stored) :=
  let leakRate : ℚ := (maxRequests : ℚ) / (windowSeconds : ℚ)
  match st with
  | some Stored.malformed => Except.error "cjson.decode raised: invalid JSON"
  | some (Stored.valid level₀ lastLeakTime) =>
    Except.ok (step maxRequests windowSeconds leakRate level₀ lastLeakTime now)
  | none =>
    Except.ok (step maxRequests windowSeconds leakRate 0 now now)
where
  /-- Body of the Lua script plus the JS result derivation, applied to
  the loaded (or defaulted) `level` and `lastLeakTime`. -/
  step (maxRequests windowSeconds : ℤ) (leakRate level₀ : ℚ)
      (lastLeakTime now : ℤ) : RateLimitResult × Stored :=
    let timePassed : ℚ := ((now : ℚ) - (lastLeakTime : ℚ)) / 1000
    let leaked := timePassed * leakRate
    let level₁ := max 0 (level₀ - leaked)
    let allowed := decide (level₁ < (maxRequests : ℚ))
    let level₂ := if level₁ < (maxRequests : ℚ) then level₁ + 1 else level₁
    let current : ℤ := ⌈level₂⌉
    let remaining := max 0 (maxRequests - current)
    let resetAt₀ :=
      ceilDiv now 1000 + ⌈((current : ℚ) - (maxRequests : ℚ) + 1) / leakRate⌉
    let resetAt :=
      if resetAt₀ = 0 then now / 1000 + windowSeconds else resetAt₀
    let retryAfter :=
      if allowed then 0
      else max 1 ⌈((current : ℚ) - (maxRequests : ℚ)) / leakRate⌉
    (⟨allowed, current, maxRequests, remaining, resetAt, retryAfter⟩,
     Stored.valid level₂ now)

/-- LeakyBucketRateLimiter.reset: `DEL key`. -/
def reset (_st : Option Stored) : Option Stored := none

/-- The result of a successful check, when the script did not abort. -/
def resultOf (maxRequests windowSeconds : ℤ) (st : Option Stored)
    (now : ℤ) : Option RateLimitResult :=
  (check maxRequests windowSeconds st now).toOption.map Prod.fst

/-- State after a sequence of checks from a starting state (an erroring
check, which only a malformed payload can cause, leaves the state as
is). -/
def stateAfter (maxRequests windowSeconds : ℤ) (ts : List ℤ)
    (st : Option Stored) : Option Stored :=
  match ts with
  | [] => st
  | t :: rest =>
    match check maxRequests windowSeconds st t with
    | Except.ok p => stateAfter maxRequests windowSeconds rest (some p.2)
    | Except.error _ => st

end LeakyBucketRateLimiter

/-- Algorithm selector, from `src/types.ts` (`RateLimitAlgorithm`). -/
inductive RateLimitAlgorithm where
  | fixedWindow
  | slidingWindow
  | leakyBucket
deriving DecidableEq, Repr

namespace RateLimiter

/-- Default key-prefix parameter of each algorithm class constructor
(`part_001` lines 33, 133, 263). -/
def algoDefaultPfx : RateLimitAlgorithm → String
  | RateLimitAlgorithm.fixedWindow => "rate_limit:fixed:"
  | RateLimitAlgorithm.slidingWindow => "rate_limit:sliding:"
  | RateLimitAlgorithm.leakyBucket => "rate_limit:leaky:"

/-- Key-prefix value an algorithm instance ends up with: the explicitly
passed argument when there is one, otherwise the class default. -/
def instancePfx (explicitPfx : Option String) (algo : RateLimitAlgorithm) :
    String :=
  explicitPfx.getD (algoDefaultPfx algo)

/-- RateLimiter.constructor (src/rate-limiter.ts lines 22-59): it
computes `keyPfx = config.keyPrefix || "rate_limit:"` and passes that
value explicitly to whichever algorithm class it instantiates, so the
class defaults are always overridden. `none` models an absent
`keyPrefix` configuration field. -/
def facadePassedPfx (cfgPfx : Option String) : Option String :=
  some (cfgPfx.getD "rate_limit:")

/-- Derived RateLimitKey (`prefix ++ identifier`, as in each class's
check: the template "this.keyPrefix followed by identifier") for the
algorithm instance the facade constructs. -/
def derivedKey (cfgPfx : Option String) (algo : RateLimitAlgorithm)
    (identifier : String) : String :=
  instancePfx (facadePassedPfx cfgPfx) algo ++ identifier

end RateLimiter

/-- The three cross-algorithm result invariants claimed by the spec:
`remaining = max(0, limit - current)`, `retryAfter = 0 ⟺ allowed`,
`0 ≤ current`. -/
def goodResult (maxRequests : ℤ) (r : RateLimitResult) : Prop :=
  r.remaining = max 0 (maxRequests - r.current) ∧
  (r.retryAfter = 0 ↔ r.allowed = true) ∧
  0 ≤ r.current

/-- Lift of `goodResult` to an optional result; an absent result (the
script aborted) asserts nothing. -/
def optGoodResult (maxRequests : ℤ) : Option RateLimitResult → Prop
  | none => True
  | some r => goodResult maxRequests r

/-- Sliding-window sorted-set states reachable from the empty initial
state by any sequence of checks (at arbitrary times) and resets. -/
inductive SWReachable (maxRequests windowSeconds : ℤ) :
    SlidingWindowRateLimiter.Log → Prop where
  | init : SWReachable maxRequests windowSeconds []
  | check {log : SlidingWindowRateLimiter.Log} (now : ℤ) :
      SWReachable maxRequests windowSeconds log →
      SWReachable maxRequests windowSeconds
        (SlidingWindowRateLimiter.check maxRequests windowSeconds log now).2
  | reset {log : SlidingWindowRateLimiter.Log} :
      SWReachable maxRequests windowSeconds log →
      SWReachable maxRequests windowSeconds
        (SlidingWindowRateLimiter.reset log)

/-! ## Claim C1 -/

/-- Claim C1 (refutation at a concrete input): the claim says that when
the pruned log already holds `countBeforeInsert ≥ limit` entries the
result has `allowed = false`. On the code, with `limit = 1`,
`windowSeconds = 60`, a first check at `now = 0` produces the reachable
log `[0]`; a second check at `now = 0` then finds `countBeforeInsert = 1
≥ 1`, inserts nothing (the stored log stays `[0]`), yet returns
`allowed = true` and `current = 1`, because the wrapper computes
`allowed = current <= maxRequests` after `current` was capped at the
limit by the skipped insert. -/
theorem C1_full_log_check_still_allowed :
    (SlidingWindowRateLimiter.check 1 60 [] 0).2 = [0] ∧
    (SlidingWindowRateLimiter.check 1 60 [0] 0).1.allowed = true ∧
    (SlidingWindowRateLimiter.check 1 60 [0] 0).1.current = 1 ∧
    (SlidingWindowRateLimiter.check 1 60 [0] 0).2 = [0] := by decide

/-! ## Claim C2 -/

/-- Claim C2 (refutation at a concrete input): with `limit = 1`,
`windowSeconds = 1`, the checks at `now = 0` and `now = 500` — both
inside one 1-second interval — are both `allowed = true` (the first
fills the log, the second skips the insert but still reports
`current ≤ limit`), so a contiguous 1-second interval contains 2 > L = 1
allowed requests. -/
theorem C2_two_allowed_in_same_window :
    (SlidingWindowRateLimiter.check 1 1 [] 0).1.allowed = true ∧
    (SlidingWindowRateLimiter.check 1 1 [] 0).2 = [0] ∧
    (SlidingWindowRateLimiter.check 1 1 [0] 500).1.allowed = true := by decide

/-! ## Claim C3 -/

/-- Claim C3 (refutation at a concrete input): with `limit = 5`,
`windowSeconds = 10` (leak rate `1/2` per second), five checks at
`now = 0` fill the bucket to level 5; a sixth check at `now = 1000` leaks
the level to `4.5 < 5`, admits the request and persists
`level = 5.5 > limit`, violating the claimed at-rest invariant
`level ≤ limit` (the admission test is `level < limit` where only
`level + 1 ≤ limit` would preserve the bound). The `now` sequence
`0,0,0,0,0,1000` is non-decreasing. -/
theorem C3_persisted_level_exceeds_limit :
    LeakyBucketRateLimiter.stateAfter 5 10 [0, 0, 0, 0, 0, 1000] none =
      some (LeakyBucketRateLimiter.Stored.valid (11 / 2) 1000) ∧
    (5 : ℚ) < 11 / 2 := by
  have s1 : LeakyBucketRateLimiter.check 5 10 none 0 =
      Except.ok (⟨true, 1, 5, 4, -6, 0⟩,
        LeakyBucketRateLimiter.Stored.valid 1 0) := by
    simp only [LeakyBucketRateLimiter.check, LeakyBucketRateLimiter.check.step,
      ceilDiv]
    norm_num [Int.ceil_ofNat, Int.ceil_neg, Int.floor_ofNat]
  have s2 : LeakyBucketRateLimiter.check 5 10
      (some (LeakyBucketRateLimiter.Stored.valid 1 0)) 0 =
      Except.ok (⟨true, 2, 5, 3, -4, 0⟩,
        LeakyBucketRateLimiter.Stored.valid 2 0) := by
    simp only [LeakyBucketRateLimiter.check, LeakyBucketRateLimiter.check.step,
      ceilDiv]
    norm_num [Int.ceil_ofNat, Int.ceil_neg, Int.floor_ofNat]
  have s3 : LeakyBucketRateLimiter.check 5 10
      (some (LeakyBucketRateLimiter.Stored.valid 2 0)) 0 =
      Except.ok (⟨true, 3, 5, 2, -2, 0⟩,
        LeakyBucketRateLimiter.Stored.valid 3 0) := by
    simp only [LeakyBucketRateLimiter.check, LeakyBucketRateLimiter.check.step,
      ceilDiv]
    norm_num [Int.ceil_ofNat, Int.ceil_neg, Int.floor_ofNat]
  have s4 : LeakyBucketRateLimiter.check 5 10
      (some (LeakyBucketRateLimiter.Stored.valid 3 0)) 0 =
      Except.ok (⟨true, 4, 5, 1, 10, 0⟩,
        LeakyBucketRateLimiter.Stored.valid 4 0) := by
    simp only [LeakyBucketRateLimiter.check, LeakyBucketRateLimiter.check.step,
      ceilDiv]
    norm_num [Int.ceil_ofNat, Int.ceil_neg, Int.floor_ofNat]
  have s5 : LeakyBucketRateLimiter.check 5 10
      (some (LeakyBucketRateLimiter.Stored.valid 4 0)) 0 =
      Except.ok (⟨true, 5, 5, 0, 2, 0⟩,
        LeakyBucketRateLimiter.Stored.valid 5 0) := by
    simp only [LeakyBucketRateLimiter.check, LeakyBucketRateLimiter.check.step,
      ceilDiv]
    norm_num [Int.ceil_ofNat, Int.ceil_neg, Int.floor_ofNat]
  have hc : (⌈(11 : ℚ) / 2⌉ : ℤ) = 6 := by norm_num [Int.ceil_eq_iff]
  have s6 : LeakyBucketRateLimiter.check 5 10
      (some (LeakyBucketRateLimiter.Stored.valid 5 0)) 1000 =
      Except.ok (⟨true, 6, 5, 0, 5, 0⟩,
        LeakyBucketRateLimiter.Stored.valid (11 / 2) 1000) := by
    simp only [LeakyBucketRateLimiter.check, LeakyBucketRateLimiter.check.step,
      ceilDiv]
    norm_num [hc, Int.ceil_ofNat, Int.ceil_neg, Int.floor_ofNat]
  refine ⟨?_, by norm_num⟩
  simp [LeakyBucketRateLimiter.stateAfter, s1, s2, s3, s4, s5, s6]

/-! ## Claim C5 -/

/-- Claim C5 (refutation at a concrete input): the claim says a
malformed persisted payload is treated as absent state and the check
returns a normal result. On the code, the Lua script calls
`cjson.decode` on any non-nil payload; on non-JSON data that raises,
aborting the `EVAL`, so the check errors instead of returning the
fresh-start result that an absent key produces. -/
theorem C5_malformed_errors_not_fresh :
    (LeakyBucketRateLimiter.resultOf 5 10
      (some LeakyBucketRateLimiter.Stored.malformed) 0) = none ∧
    (LeakyBucketRateLimiter.resultOf 5 10 none 0) =
      some ⟨true, 1, 5, 4, -6, 0⟩ := by
  have s1 : LeakyBucketRateLimiter.check 5 10 none 0 =
      Except.ok (⟨true, 1, 5, 4, -6, 0⟩,
        LeakyBucketRateLimiter.Stored.valid 1 0) := by
    simp only [LeakyBucketRateLimiter.check, LeakyBucketRateLimiter.check.step,
      ceilDiv]
    norm_num [Int.ceil_ofNat, Int.ceil_neg, Int.floor_ofNat]
  exact ⟨rfl, by simp [LeakyBucketRateLimiter.resultOf, s1, Except.toOption]⟩

/-- Claim C5 as amended: a malformed leaky-bucket payload makes the
check fail (the script aborts, the error propagates to the caller);
only a genuinely absent key is given the fresh-start defaults
`level = 0, lastLeakTime = now`, which the check treats exactly like a
stored `(0, now)` pair. -/
theorem C5_amended_malformed_raises
    (maxRequests windowSeconds now : ℤ) :
    (LeakyBucketRateLimiter.check maxRequests windowSeconds
      (some LeakyBucketRateLimiter.Stored.malformed) now).isOk = false ∧
    LeakyBucketRateLimiter.check maxRequests windowSeconds none now =
      LeakyBucketRateLimiter.check maxRequests windowSeconds
        (some (LeakyBucketRateLimiter.Stored.valid 0 now)) now :=
  ⟨rfl, rfl⟩

/-! ## Claim C6 -/

/-- Claim C6 (refutation at a concrete input): the claim says that with
no explicit key-prefix configuration the facade's derived keys differ
per algorithm family. On the code, `RateLimiter.constructor` computes
`config.keyPrefix || "rate_limit:"` and passes it to every algorithm
class, overriding their distinct defaults, so for identifier `u1` all
three algorithms derive the same key `rate_limit:u1` (and would even
collide on the same Redis key with incompatible data types). -/
theorem C6_facade_default_keys_coincide :
    RateLimiter.derivedKey none RateLimitAlgorithm.fixedWindow "u1" =
      RateLimiter.derivedKey none RateLimitAlgorithm.slidingWindow "u1" ∧
    RateLimiter.derivedKey none RateLimitAlgorithm.slidingWindow "u1" =
      RateLimiter.derivedKey none RateLimitAlgorithm.leakyBucket "u1" ∧
    RateLimiter.derivedKey none RateLimitAlgorithm.fixedWindow "u1" =
      "rate_limit:u1" :=
  ⟨rfl, rfl, rfl⟩

/-! ## Claim C9 -/

/-- Claim C9 (refutation at a concrete input): the claim says every
allowed leaky-bucket result has `resetAt = now/1000 + windowSeconds`.
On the code, with `limit = 5`, `windowSeconds = 10`, a first check at
`now = 1000000` is allowed with `current = 1`, and `resetAt` is computed
as `ceil(now/1000) + ceil((current - limit + 1)/leakRate)
= 1000 + ceil(-3 / (1/2)) = 994`, not the claimed default
`1000000/1000 + 10 = 1010` (the `|| fallback` only fires when the
computed value is exactly 0). -/
theorem C9_allowed_resetAt_not_default :
    LeakyBucketRateLimiter.resultOf 5 10 none 1000000 =
      some ⟨true, 1, 5, 4, 994, 0⟩ ∧
    (994 : ℤ) ≠ 1000000 / 1000 + 10 := by
  have s1 : LeakyBucketRateLimiter.check 5 10 none 1000000 =
      Except.ok (⟨true, 1, 5, 4, 994, 0⟩,
        LeakyBucketRateLimiter.Stored.valid 1 1000000) := by
    simp only [LeakyBucketRateLimiter.check, LeakyBucketRateLimiter.check.step,
      ceilDiv]
    norm_num [Int.ceil_ofNat, Int.ceil_neg, Int.floor_ofNat]
  exact ⟨by simp [LeakyBucketRateLimiter.resultOf, s1, Except.toOption], by decide⟩

/-- Claim C9 as amended: the leaky-bucket `resetAt` — in the allowed
case as in the rejected one — equals
`ceil(now/1000) + ceil((current - limit + 1) / leakRate)`, and the
default `now/1000 + windowSeconds` is used only when that computed value
is exactly 0 (the JS `resetAt || fallback`). -/
theorem C9_amended_resetAt_formula (maxRequests windowSeconds now : ℤ)
    (st : Option LeakyBucketRateLimiter.Stored) (r : RateLimitResult)
    (h : LeakyBucketRateLimiter.resultOf maxRequests windowSeconds st now =
      some r) :
    r.resetAt =
      if ceilDiv now 1000 +
          ⌈((r.current : ℚ) - (maxRequests : ℚ) + 1) /
            ((maxRequests : ℚ) / (windowSeconds : ℚ))⌉ = 0
      then now / 1000 + windowSeconds
      else
        ceilDiv now 1000 +
          ⌈((r.current : ℚ) - (maxRequests : ℚ) + 1) /
            ((maxRequests : ℚ) / (windowSeconds : ℚ))⌉ := by
  cases st with
  | none =>
      rw [show LeakyBucketRateLimiter.resultOf maxRequests windowSeconds
            none now =
          some (LeakyBucketRateLimiter.check.step maxRequests windowSeconds
            ((maxRequests : ℚ) / (windowSeconds : ℚ)) 0 now now).1 from rfl] at h
      injection h with h
      subst h
      rfl
  | some v =>
      cases v with
      | malformed => exact Option.noConfusion h
      | valid level₀ lastLeakTime =>
          rw [show LeakyBucketRateLimiter.resultOf maxRequests windowSeconds
                (some (LeakyBucketRateLimiter.Stored.valid level₀
                  lastLeakTime)) now =
              some (LeakyBucketRateLimiter.check.step maxRequests
                windowSeconds ((maxRequests : ℚ) / (windowSeconds : ℚ))
                level₀ lastLeakTime now).1 from rfl] at h
          injection h with h
          subst h
          rfl

/-- Witness for C9_amended_resetAt_formula at the concrete input of the
counterexample: limit 5, window 10 s, fresh state, `now = 1000000` ms. -/
theorem C9_amended_resetAt_formula_witness :
    (994 : ℤ) =
      if ceilDiv 1000000 1000 +
          ⌈(((1 : ℤ) : ℚ) - ((5 : ℤ) : ℚ) + 1) /
            (((5 : ℤ) : ℚ) / ((10 : ℤ) : ℚ))⌉ = 0
      then 1000000 / 1000 + 10
      else
        ceilDiv 1000000 1000 +
          ⌈(((1 : ℤ) : ℚ) - ((5 : ℤ) : ℚ) + 1) /
            (((5 : ℤ) : ℚ) / ((10 : ℤ) : ℚ))⌉ :=
  C9_amended_resetAt_formula 5 10 1000000 none ⟨true, 1, 5, 4, 994, 0⟩
    (C9_allowed_resetAt_not_default.1)

/-! ## Claim C10 -/

/-- The stored log after a sliding-window check, in closed form. -/
theorem SlidingWindowRateLimiter.check_snd (maxRequests windowSeconds : ℤ)
    (log : SlidingWindowRateLimiter.Log) (now : ℤ) :
    (SlidingWindowRateLimiter.check maxRequests windowSeconds log now).2 =
      if ((SlidingWindowRateLimiter.prune (now - windowSeconds * 1000)
          log).length : ℤ) < maxRequests
      then now :: SlidingWindowRateLimiter.prune
        (now - windowSeconds * 1000) log
      else SlidingWindowRateLimiter.prune (now - windowSeconds * 1000) log :=
  rfl

/-- Claim C10: the stored sliding-window sorted set never holds more
than `limit` entries. Every check inserts only when the post-prune
cardinality is strictly below the limit, pruning only shrinks the set,
and reset empties it, so from the empty initial state every reachable
log has length at most `limit`. -/
theorem C10_log_cardinality_bounded (maxRequests windowSeconds : ℤ)
    (hL : 0 < maxRequests) (log : SlidingWindowRateLimiter.Log)
    (hreach : SWReachable maxRequests windowSeconds log) :
    (log.length : ℤ) ≤ maxRequests := by
  induction hreach with
  | init => simpa using hL.le
  | @check log' now _ ih =>
      have hp : (SlidingWindowRateLimiter.prune
            (now - windowSeconds * 1000) log').length ≤ log'.length :=
        List.length_filter_le _ log'
      rw [SlidingWindowRateLimiter.check_snd]
      split
      next hlt => simp only [List.length_cons]; push_cast at *; omega
      next hge => push_cast at *; omega
  | reset _ _ => simpa using hL.le

/-- Witness for C10_log_cardinality_bounded on the log reached by one
check from the empty initial state with limit 1. -/
theorem C10_log_cardinality_bounded_witness :
    (((SlidingWindowRateLimiter.check 1 1 [] 0).2).length : ℤ) ≤ 1 :=
  C10_log_cardinality_bounded 1 1 (by decide) _
    (SWReachable.check 0 SWReachable.init)

/-! ## Claim C8 -/

/-- Claim C8: for each algorithm, `reset(id)` deletes the identifier's
key, so a check right after a reset runs from exactly the state a
never-seen identifier has and returns the same result; given a positive
limit that fresh result has `current = 1` and `allowed = true`. -/
theorem C8_reset_then_check_fresh (maxRequests windowSeconds now : ℤ)
    (hL : 0 < maxRequests)
    (fwSt : FixedWindowRateLimiter.State)
    (log : SlidingWindowRateLimiter.Log)
    (lbSt : Option LeakyBucketRateLimiter.Stored) :
    FixedWindowRateLimiter.check maxRequests windowSeconds
        (FixedWindowRateLimiter.reset fwSt) now =
      FixedWindowRateLimiter.check maxRequests windowSeconds none now ∧
    SlidingWindowRateLimiter.check maxRequests windowSeconds
        (SlidingWindowRateLimiter.reset log) now =
      SlidingWindowRateLimiter.check maxRequests windowSeconds [] now ∧
    LeakyBucketRateLimiter.check maxRequests windowSeconds
        (LeakyBucketRateLimiter.reset lbSt) now =
      LeakyBucketRateLimiter.check maxRequests windowSeconds none now ∧
    (FixedWindowRateLimiter.check maxRequests windowSeconds
        none now).1.current = 1 ∧
    (FixedWindowRateLimiter.check maxRequests windowSeconds
        none now).1.allowed = true ∧
    (SlidingWindowRateLimiter.check maxRequests windowSeconds
        [] now).1.current = 1 ∧
    (SlidingWindowRateLimiter.check maxRequests windowSeconds
        [] now).1.allowed = true ∧
    (LeakyBucketRateLimiter.resultOf maxRequests windowSeconds
        none now).map (fun r => (r.current, r.allowed)) =
      some (1, true) := by
  have h1 : (1 : ℤ) ≤ maxRequests := hL
  have hcast : (0 : ℚ) < (maxRequests : ℚ) := by exact_mod_cast hL
  refine ⟨rfl, rfl, rfl, rfl, ?_, ?_, ?_, ?_⟩
  · simp only [FixedWindowRateLimiter.check, FixedWindowRateLimiter.load,
      decide_eq_true_eq]
    omega
  · simp [SlidingWindowRateLimiter.check, SlidingWindowRateLimiter.prune, hL]
  · simp only [SlidingWindowRateLimiter.check, SlidingWindowRateLimiter.prune,
      List.filter_nil, List.length_nil, Nat.cast_zero, decide_eq_true_eq]
    rw [if_pos hL]
    omega
  · simp [LeakyBucketRateLimiter.resultOf, LeakyBucketRateLimiter.check,
      LeakyBucketRateLimiter.check.step, Except.toOption, hcast, Int.ceil_one]

/-- Witness for C8_reset_then_check_fresh with limit 1, window 1 s, a
populated counter, a populated log, and a malformed gauge payload, all
reset at `now = 0`. -/
theorem C8_reset_then_check_fresh_witness :
    FixedWindowRateLimiter.check 1 1
        (FixedWindowRateLimiter.reset (some (5, 100))) 0 =
      FixedWindowRateLimiter.check 1 1 none 0 ∧
    SlidingWindowRateLimiter.check 1 1
        (SlidingWindowRateLimiter.reset [3]) 0 =
      SlidingWindowRateLimiter.check 1 1 [] 0 ∧
    LeakyBucketRateLimiter.check 1 1
        (LeakyBucketRateLimiter.reset
          (some LeakyBucketRateLimiter.Stored.malformed)) 0 =
      LeakyBucketRateLimiter.check 1 1 none 0 ∧
    (FixedWindowRateLimiter.check 1 1 none 0).1.current = 1 ∧
    (FixedWindowRateLimiter.check 1 1 none 0).1.allowed = true ∧
    (SlidingWindowRateLimiter.check 1 1 [] 0).1.current = 1 ∧
    (SlidingWindowRateLimiter.check 1 1 [] 0).1.allowed = true ∧
    (LeakyBucketRateLimiter.resultOf 1 1 none 0).map
        (fun r => (r.current, r.allowed)) = some (1, true) :=
  C8_reset_then_check_fresh 1 1 0 (by decide) (some (5, 100)) [3]
    (some LeakyBucketRateLimiter.Stored.malformed)

/-! ## Claim C7 -/

/-- Auxiliary: in a window of positive length, the window's reset
instant lies strictly after `now`. -/
theorem window_resetAt_pos (windowSeconds now : ℤ) (hW : 0 < windowSeconds) :
    now < now / windowSeconds * windowSeconds + windowSeconds := by
  have h1 : now % windowSeconds < windowSeconds := Int.emod_lt_of_pos now hW
  have h2 : windowSeconds * (now / windowSeconds) + now % windowSeconds = now :=
    Int.ediv_add_emod now windowSeconds
  have h3 : now / windowSeconds * windowSeconds =
      windowSeconds * (now / windowSeconds) := mul_comm _ _
  linarith

/-- Auxiliary: `max 1 x` is never 0 over the integers. -/
theorem int_max_one_ne_zero (x : ℤ) : max 1 x ≠ 0 := by
  intro h
  have h1 : (1 : ℤ) ≤ max 1 x := le_max_left 1 x
  rw [h] at h1
  exact absurd h1 (by decide)

/-- Auxiliary: strict monotonicity fact for `ceilDiv` by 1000 needed for
the sliding-window `retryAfter`. -/
theorem ceilDiv_thousand_lt (a n : ℤ) (h : n + 1 ≤ a) :
    n / 1000 < ceilDiv a 1000 := by
  unfold ceilDiv
  omega

/-- Auxiliary: the lowest score returned by `getOldestTimestamp` is an
element of the log. -/
theorem SlidingWindowRateLimiter.getOldestTimestamp_mem :
    ∀ (log : SlidingWindowRateLimiter.Log) (m : ℤ),
      SlidingWindowRateLimiter.getOldestTimestamp log = some m → m ∈ log := by
  intro log
  induction log with
  | nil => intro m h; cases h
  | cons t rest ih =>
      intro m h
      simp only [SlidingWindowRateLimiter.getOldestTimestamp] at h
      cases hr : SlidingWindowRateLimiter.getOldestTimestamp rest with
      | none =>
          rw [hr] at h
          injection h with h
          subst h
          exact List.mem_cons_self t rest
      | some m' =>
          rw [hr] at h
          injection h with h
          subst h
          rcases le_total t m' with hle | hle
          · rw [min_eq_left hle]
            exact List.mem_cons_self t rest
          · rw [min_eq_right hle]
            exact List.mem_cons_of_mem t (ih m' hr)

/-- Auxiliary: a nonempty log has an oldest entry. -/
theorem SlidingWindowRateLimiter.getOldestTimestamp_isSome
    (log : SlidingWindowRateLimiter.Log) (hne : log ≠ []) :
    ∃ m, SlidingWindowRateLimiter.getOldestTimestamp log = some m := by
  cases log with
  | nil => exact absurd rfl hne
  | cons t rest =>
      simp only [SlidingWindowRateLimiter.getOldestTimestamp]
      cases SlidingWindowRateLimiter.getOldestTimestamp rest with
      | none => exact ⟨t, rfl⟩
      | some m' => exact ⟨min t m', rfl⟩

/-- Auxiliary: the fixed-window result invariants, stated on the result
record with an abstract positive counter value. -/
theorem fw_core_goodResult (maxRequests windowSeconds now cur : ℤ)
    (hW : 0 < windowSeconds) (hcur : 0 < cur) :
    goodResult maxRequests
      ⟨decide (cur ≤ maxRequests), cur, maxRequests,
       max 0 (maxRequests - cur),
       now / windowSeconds * windowSeconds + windowSeconds,
       if cur ≤ maxRequests then 0
       else now / windowSeconds * windowSeconds + windowSeconds - now⟩ := by
  have hpos := window_resetAt_pos windowSeconds now hW
  unfold goodResult
  dsimp only
  refine ⟨rfl, ?_, hcur.le⟩
  by_cases h : cur ≤ maxRequests
  · rw [if_pos h]
    simp [h]
  · rw [if_neg h]
    simp only [decide_eq_true_eq]
    constructor
    · intro h0
      exfalso
      linarith
    · intro hb
      exact absurd hb h

/-- Auxiliary: every fixed-window check result satisfies the result
invariants, for any stored state with a non-negative counter. -/
theorem fw_check_goodResult (maxRequests windowSeconds : ℤ)
    (hW : 0 < windowSeconds) (st : FixedWindowRateLimiter.State)
    (hst : ∀ c e, st = some (c, e) → 0 ≤ c) (now : ℤ) :
    goodResult maxRequests
      (FixedWindowRateLimiter.check maxRequests windowSeconds st now).1 := by
  rcases st with _ | ⟨c, e⟩
  · exact fw_core_goodResult maxRequests windowSeconds now 1 hW one_pos
  · by_cases he : e ≤ now
    · have hr : (FixedWindowRateLimiter.check maxRequests windowSeconds
            (some (c, e)) now).1 =
          ⟨decide ((1 : ℤ) ≤ maxRequests), 1, maxRequests,
           max 0 (maxRequests - 1),
           now / windowSeconds * windowSeconds + windowSeconds,
           if (1 : ℤ) ≤ maxRequests then 0
           else now / windowSeconds * windowSeconds + windowSeconds - now⟩ := by
        simp only [FixedWindowRateLimiter.check, FixedWindowRateLimiter.load,
          if_pos he]
      rw [hr]
      exact fw_core_goodResult maxRequests windowSeconds now 1 hW one_pos
    · have hc : 0 ≤ c := hst c e rfl
      have hr : (FixedWindowRateLimiter.check maxRequests windowSeconds
            (some (c, e)) now).1 =
          ⟨decide (c + 1 ≤ maxRequests), c + 1, maxRequests,
           max 0 (maxRequests - (c + 1)),
           now / windowSeconds * windowSeconds + windowSeconds,
           if c + 1 ≤ maxRequests then 0
           else now / windowSeconds * windowSeconds + windowSeconds - now⟩ := by
        simp only [FixedWindowRateLimiter.check, FixedWindowRateLimiter.load,
          if_neg he]
      rw [hr]
      exact fw_core_goodResult maxRequests windowSeconds now (c + 1) hW
        (by omega)

/-- Auxiliary: every sliding-window check result satisfies the result
invariants, for any stored log of non-negative scores. -/
theorem sw_check_goodResult (maxRequests windowSeconds : ℤ)
    (hL : 0 < maxRequests) (hW : 0 < windowSeconds)
    (log : SlidingWindowRateLimiter.Log) (hlog : ∀ s ∈ log, 0 ≤ s)
    (now : ℤ) :
    goodResult maxRequests
      (SlidingWindowRateLimiter.check maxRequests windowSeconds log now).1 := by
  unfold goodResult SlidingWindowRateLimiter.check
  dsimp only
  set P := SlidingWindowRateLimiter.prune (now - windowSeconds * 1000) log
    with hP
  by_cases hins : (P.length : ℤ) < maxRequests
  · rw [if_pos hins, if_pos hins]
    have h1 : (P.length : ℤ) + 1 ≤ maxRequests := by omega
    rw [if_pos h1]
    refine ⟨rfl, by simp [h1], by omega⟩
  · rw [if_neg hins, if_neg hins]
    refine ⟨rfl, ?_, by omega⟩
    by_cases hle : (P.length : ℤ) ≤ maxRequests
    · rw [if_pos hle]
      simp [hle]
    · rw [if_neg hle]
      have hlen : P ≠ [] := by
        have hpos : 0 < (P.length : ℤ) := by omega
        exact List.length_pos.mp (by exact_mod_cast hpos)
      obtain ⟨m, hm⟩ :=
        SlidingWindowRateLimiter.getOldestTimestamp_isSome P hlen
      rw [hm]
      dsimp only
      have hmem := SlidingWindowRateLimiter.getOldestTimestamp_mem P m hm
      rw [hP] at hmem
      simp only [SlidingWindowRateLimiter.prune] at hmem
      obtain ⟨hmlog, hpm⟩ := List.mem_filter.mp hmem
      simp only [Bool.or_eq_true, decide_eq_true_eq] at hpm
      have hm0 : 0 ≤ m := hlog m hmlog
      have hws : now - windowSeconds * 1000 < m := by
        rcases hpm with h | h
        · exact h
        · omega
      have hlt := ceilDiv_thousand_lt (m + windowSeconds * 1000) now (by omega)
      generalize hR : ceilDiv (m + windowSeconds * 1000) 1000 = R at hlt ⊢
      rw [max_eq_right (by omega : (0 : ℤ) ≤ R - now / 1000)]
      simp only [decide_eq_true_eq]
      constructor
      · intro h0
        exfalso
        omega
      · intro hb
        exact absurd hb hle

/-- Auxiliary: the leaky-bucket script body always produces a result
satisfying the result invariants. -/
theorem lb_step_goodResult (maxRequests windowSeconds : ℤ)
    (leakRate level₀ : ℚ) (lastLeakTime now : ℤ) :
    goodResult maxRequests
      (LeakyBucketRateLimiter.check.step maxRequests windowSeconds leakRate
        level₀ lastLeakTime now).1 := by
  unfold goodResult LeakyBucketRateLimiter.check.step
  dsimp only
  refine ⟨rfl, ?_, ?_⟩
  · by_cases h : max 0 (level₀ -
        ((now : ℚ) - (lastLeakTime : ℚ)) / 1000 * leakRate) <
        (maxRequests : ℚ)
    · simp [h]
    · simp [h, int_max_one_ne_zero]
  · split
    · exact Int.ceil_nonneg (by positivity)
    · exact Int.ceil_nonneg (le_max_left _ _)

/-- Auxiliary: every successful leaky-bucket check result satisfies the
result invariants (a malformed payload yields no result at all). -/
theorem lb_check_goodResult (maxRequests windowSeconds : ℤ)
    (st : Option LeakyBucketRateLimiter.Stored) (now : ℤ) :
    optGoodResult maxRequests
      (LeakyBucketRateLimiter.resultOf maxRequests windowSeconds st now) := by
  cases st with
  | none => exact lb_step_goodResult maxRequests windowSeconds _ 0 now now
  | some v =>
      cases v with
      | malformed => trivial
      | valid level₀ lastLeakTime =>
          exact lb_step_goodResult maxRequests windowSeconds _ level₀
            lastLeakTime now

/-- Claim C7: every result returned by a check of any of the three
algorithms satisfies `remaining = max(0, limit - current)`,
`retryAfter = 0 ⟺ allowed = true`, and `0 ≤ current`. Stated for every
store state whose counter is non-negative and whose log scores are
non-negative — which covers every state reachable by prior checks, since
counters are only ever created at 1 and incremented, and log entries are
past check timestamps. -/
theorem C7_result_invariants (maxRequests windowSeconds now : ℤ)
    (hL : 0 < maxRequests) (hW : 0 < windowSeconds)
    (fwSt : FixedWindowRateLimiter.State)
    (hfw : ∀ c e, fwSt = some (c, e) → 0 ≤ c)
    (log : SlidingWindowRateLimiter.Log) (hlog : ∀ s ∈ log, 0 ≤ s)
    (lbSt : Option LeakyBucketRateLimiter.Stored) :
    goodResult maxRequests
      (FixedWindowRateLimiter.check maxRequests windowSeconds fwSt now).1 ∧
    goodResult maxRequests
      (SlidingWindowRateLimiter.check maxRequests windowSeconds log now).1 ∧
    optGoodResult maxRequests
      (LeakyBucketRateLimiter.resultOf maxRequests windowSeconds lbSt now) :=
  ⟨fw_check_goodResult maxRequests windowSeconds hW fwSt hfw now,
   sw_check_goodResult maxRequests windowSeconds hL hW log hlog now,
   lb_check_goodResult maxRequests windowSeconds lbSt now⟩

/-- Witness for C7_result_invariants at limit 1, window 1, absent
states, `now = 0`. -/
theorem C7_result_invariants_witness :
    goodResult 1 (FixedWindowRateLimiter.check 1 1 none 0).1 ∧
    goodResult 1 (SlidingWindowRateLimiter.check 1 1 [] 0).1 ∧
    optGoodResult 1 (LeakyBucketRateLimiter.resultOf 1 1 none 0) :=
  C7_result_invariants 1 1 0 (by decide) (by decide) none
    (by intro c e h; exact Option.noConfusion h) []
    (by intro s hs; exact absurd hs (List.not_mem_nil s)) none

/-! ## Claim C4 -/

/-- Auxiliary: bounds of the window a timestamp falls in. -/
theorem window_bounds (windowSeconds t q : ℤ) (hW : 0 < windowSeconds)
    (ht : t / windowSeconds = q) :
    q * windowSeconds ≤ t ∧ t < (q + 1) * windowSeconds := by
  have h1 : windowSeconds * (t / windowSeconds) + t % windowSeconds = t :=
    Int.ediv_add_emod t windowSeconds
  have h2 : 0 ≤ t % windowSeconds := Int.emod_nonneg t (by omega)
  have h3 : t % windowSeconds < windowSeconds := Int.emod_lt_of_pos t hW
  rw [ht] at h1
  constructor <;> nlinarith [h1, h2, h3]

/-- Auxiliary: a fixed-window check at a time inside the window of a
live counter `(c, (q+1)·W)` increments the counter and keeps the
expiry. -/
theorem fw_check_step_in_window (maxRequests windowSeconds q c t : ℤ)
    (hW : 0 < windowSeconds) (ht : t / windowSeconds = q) :
    FixedWindowRateLimiter.check maxRequests windowSeconds
        (some (c, (q + 1) * windowSeconds)) t =
      (⟨decide (c + 1 ≤ maxRequests), c + 1, maxRequests,
        max 0 (maxRequests - (c + 1)), (q + 1) * windowSeconds,
        if c + 1 ≤ maxRequests then 0
        else (q + 1) * windowSeconds - t⟩,
       (c + 1, (q + 1) * windowSeconds)) := by
  have hb := window_bounds windowSeconds t q hW ht
  have hlive : ¬ ((q + 1) * windowSeconds ≤ t) := not_le.mpr hb.2
  have hres : t / windowSeconds * windowSeconds + windowSeconds =
      (q + 1) * windowSeconds := by rw [ht]; ring
  simp only [FixedWindowRateLimiter.check, FixedWindowRateLimiter.load,
    if_neg hlive, hres]

/-- Auxiliary: a fixed-window check on an absent key creates the counter
at 1 with expiry at the end of the current window. -/
theorem fw_check_step_fresh (maxRequests windowSeconds q t : ℤ)
    (hW : 0 < windowSeconds) (ht : t / windowSeconds = q) :
    FixedWindowRateLimiter.check maxRequests windowSeconds none t =
      (⟨decide ((1 : ℤ) ≤ maxRequests), 1, maxRequests,
        max 0 (maxRequests - 1), (q + 1) * windowSeconds,
        if (1 : ℤ) ≤ maxRequests then 0
        else (q + 1) * windowSeconds - t⟩,
       (1, (q + 1) * windowSeconds)) := by
  have hres : t / windowSeconds * windowSeconds + windowSeconds =
      (q + 1) * windowSeconds := by rw [ht]; ring
  have hexp : t + (t / windowSeconds * windowSeconds + windowSeconds - t) =
      (q + 1) * windowSeconds := by rw [ht]; ring
  have hexp2 : t + ((q + 1) * windowSeconds - t) =
      (q + 1) * windowSeconds := by ring
  simp only [FixedWindowRateLimiter.check, FixedWindowRateLimiter.load,
    hres, hexp, hexp2]

/-- Auxiliary: closed form of the i-th result of a run of in-window
checks starting from a live counter `(c, (q+1)·W)`. -/
theorem fw_run_get (maxRequests windowSeconds q : ℤ)
    (hW : 0 < windowSeconds) :
    ∀ (ts : List ℤ) (c : ℤ), (∀ t ∈ ts, t / windowSeconds = q) →
      ∀ (i : ℕ) (tI : ℤ), ts[i]? = some tI →
      (FixedWindowRateLimiter.run maxRequests windowSeconds
          (some (c, (q + 1) * windowSeconds)) ts).1[i]? =
        some ⟨decide (c + (i : ℤ) + 1 ≤ maxRequests), c + (i : ℤ) + 1,
          maxRequests, max 0 (maxRequests - (c + (i : ℤ) + 1)),
          (q + 1) * windowSeconds,
          if c + (i : ℤ) + 1 ≤ maxRequests then 0
          else (q + 1) * windowSeconds - tI⟩ := by
  intro ts
  induction ts with
  | nil => intro c _ i tI h; simp at h
  | cons t rest ih =>
      intro c hts i tI hti
      have ht : t / windowSeconds = q := hts t (List.mem_cons_self t rest)
      have hstep := fw_check_step_in_window maxRequests windowSeconds q c t
        hW ht
      have hrun : (FixedWindowRateLimiter.run maxRequests windowSeconds
          (some (c, (q + 1) * windowSeconds)) (t :: rest)).1 =
          (⟨decide (c + 1 ≤ maxRequests), c + 1, maxRequests,
            max 0 (maxRequests - (c + 1)), (q + 1) * windowSeconds,
            if c + 1 ≤ maxRequests then 0
            else (q + 1) * windowSeconds - t⟩ : RateLimitResult) ::
          (FixedWindowRateLimiter.run maxRequests windowSeconds
            (some (c + 1, (q + 1) * windowSeconds)) rest).1 := by
        simp only [FixedWindowRateLimiter.run, hstep]
      rw [hrun]
      cases i with
      | zero =>
          simp only [List.getElem?_cons_zero] at hti ⊢
          injection hti with hti
          subst hti
          have e : c + ((0 : ℕ) : ℤ) + 1 = c + 1 := by push_cast; ring
          rw [e]
      | succ n =>
          simp only [List.getElem?_cons_succ] at hti ⊢
          have hrec := ih (c + 1)
            (fun t' ht' => hts t' (List.mem_cons_of_mem t ht')) n tI hti
          have e : c + ((n + 1 : ℕ) : ℤ) + 1 = c + 1 + (n : ℤ) + 1 := by
            push_cast; ring
          rw [e]
          exact hrec

/-- Claim C4: Fixed Window from absent state with all calls inside one
window (the window with index `q`): the i-th result (0-based) has
`current = i + 1`, `allowed ⟺ i + 1 ≤ limit`,
`remaining = max 0 (limit - (i+1))` (hence strictly decreasing while
requests are allowed), `resetAt = (q+1)·windowSeconds`, `retryAfter = 0`
when allowed and `retryAfter = resetAt - now > 0` when rejected — so the
first `limit` checks are allowed with `current` running 1..limit and the
`(limit+1)`-th is rejected with a positive `retryAfter`. -/
theorem C4_fixed_window_first_window (maxRequests windowSeconds q : ℤ)
    (hW : 0 < windowSeconds) (ts : List ℤ)
    (hts : ∀ t ∈ ts, t / windowSeconds = q) (i : ℕ) (tI : ℤ)
    (hti : ts[i]? = some tI) :
    (FixedWindowRateLimiter.run maxRequests windowSeconds none ts).1[i]? =
      some ⟨decide ((i : ℤ) + 1 ≤ maxRequests), (i : ℤ) + 1, maxRequests,
        max 0 (maxRequests - ((i : ℤ) + 1)), (q + 1) * windowSeconds,
        if (i : ℤ) + 1 ≤ maxRequests then 0
        else (q + 1) * windowSeconds - tI⟩ ∧
    0 < (q + 1) * windowSeconds - tI := by
  have htI : tI ∈ ts := by
    have := List.getElem?_eq_some.mp hti
    obtain ⟨hlen, hv⟩ := this
    exact hv ▸ List.getElem_mem hlen
  have hq : tI / windowSeconds = q := hts tI htI
  have hb := window_bounds windowSeconds tI q hW hq
  refine ⟨?_, by linarith [hb.2]⟩
  cases ts with
  | nil => simp at hti
  | cons t rest =>
      have ht : t / windowSeconds = q := hts t (List.mem_cons_self t rest)
      have hstep := fw_check_step_fresh maxRequests windowSeconds q t hW ht
      have hrun : (FixedWindowRateLimiter.run maxRequests windowSeconds
          none (t :: rest)).1 =
          (⟨decide ((1 : ℤ) ≤ maxRequests), 1, maxRequests,
            max 0 (maxRequests - 1), (q + 1) * windowSeconds,
            if (1 : ℤ) ≤ maxRequests then 0
            else (q + 1) * windowSeconds - t⟩ : RateLimitResult) ::
          (FixedWindowRateLimiter.run maxRequests windowSeconds
            (some (1, (q + 1) * windowSeconds)) rest).1 := by
        simp only [FixedWindowRateLimiter.run, hstep]
      rw [hrun]
      cases i with
      | zero =>
          simp only [List.getElem?_cons_zero] at hti ⊢
          injection hti with hti
          subst hti
          have e : ((0 : ℕ) : ℤ) + 1 = (1 : ℤ) := by norm_num
          rw [e]
      | succ n =>
          simp only [List.getElem?_cons_succ] at hti ⊢
          have hrec := fw_run_get maxRequests windowSeconds q hW rest 1
            (fun t' ht' => hts t' (List.mem_cons_of_mem t ht')) n tI hti
          have e : ((n + 1 : ℕ) : ℤ) + 1 = 1 + (n : ℤ) + 1 := by
            push_cast; ring
          rw [e]
          exact hrec

/-- Witness for C4_fixed_window_first_window at the spec's concrete
scenario: limit 10, window 60 s, eleven calls at `t = 0`; the 11th
result (index 10) has `current = 11`, `allowed = false` (11 ≤ 10 fails),
`remaining = 0`, `resetAt = 60` and `retryAfter = 60 > 0`. -/
theorem C4_fixed_window_first_window_witness :
    (FixedWindowRateLimiter.run 10 60 none (List.replicate 11 0)).1[10]? =
      some ⟨decide (((10 : ℕ) : ℤ) + 1 ≤ 10), ((10 : ℕ) : ℤ) + 1, 10,
        max 0 (10 - (((10 : ℕ) : ℤ) + 1)), (0 + 1) * 60,
        if ((10 : ℕ) : ℤ) + 1 ≤ 10 then 0 else (0 + 1) * 60 - 0⟩ ∧
    (0 : ℤ) < (0 + 1) * 60 - 0 :=
  C4_fixed_window_first_window 10 60 0 (by decide) (List.replicate 11 0)
    (by decide) 10 0 (by decide)
